import Mathlib

/-!
Shallow embedding of the portfolio scene controller
(`src/three/CharacterController.ts` and `src/three/ThreeScene.ts`).

The first part models `CharacterController`: a physics-driven character with
an optional body (position, velocity, optional world used for the ground
raycast) and a remembered facing angle.  The second part models the logical
state of `ThreeScene`: the animation action table, the `currentActionName`
pointer and the four exclusive-mode flags together with the pending
`setTimeout` callbacks the handlers schedule.
-/

namespace Portfolio

/-- A 3-component vector, as used by `cannon-es` for positions/velocities. -/
structure Vec3 where
  x : ℝ
  y : ℝ
  z : ℝ

/-- The character's physics body: position, velocity and the (optional) world
it lives in.  The world is abstracted to its `raycastClosest` result: a
predicate telling, for a segment `from → to`, whether the ray hit anything
(`result.hasHit`). -/
structure Body where
  position : Vec3
  velocity : Vec3
  world : Option (Vec3 → Vec3 → Bool)

/-- `CharacterController`: an optional body plus the stored facing angle
(`lastAngle`, initially 0). -/
structure CharacterController where
  characterBody : Option Body
  lastAngle : ℝ

/-- The freshly constructed controller (`constructor() {}`, `lastAngle = 0`,
no body attached yet). -/
def CharacterController.initCC : CharacterController :=
  { characterBody := none, lastAngle := 0 }

/-- `CharacterController.update(keys)`: if no body, return; otherwise command
the horizontal velocity from the key snapshot (`KeyW` wins over `KeyS`,
`KeyA` wins over `KeyD` because of the `else if` chains), keeping the current
vertical velocity. -/
def CharacterController.update (keys : String → Bool)
    (cc : CharacterController) : CharacterController :=
  match cc.characterBody with
  | none => cc
  | some b =>
    let speed : ℝ := 15
    let v0 : Vec3 := ⟨0, b.velocity.y, 0⟩
    let v1 : Vec3 :=
      if keys "KeyW" then { v0 with z := -speed }
      else if keys "KeyS" then { v0 with z := speed }
      else v0
    let v2 : Vec3 :=
      if keys "KeyA" then { v1 with x := -speed }
      else if keys "KeyD" then { v1 with x := speed }
      else v1
    { cc with characterBody := some { b with velocity := v2 } }

/-- `isOnGround()`: false without a body or world; otherwise the result of a
downward raycast from the body center to a point 0.55 units below it. -/
def CharacterController.isOnGround (cc : CharacterController) : Bool :=
  match cc.characterBody with
  | none => false
  | some b =>
    match b.world with
    | none => false
    | some raycastHasHit =>
      raycastHasHit b.position ⟨b.position.x, b.position.y - 0.55, b.position.z⟩

/-- `jump()`: if no body, return; if the ground probe hits, set the vertical
velocity to the fixed takeoff speed 10; otherwise change nothing. -/
def CharacterController.jump (cc : CharacterController) : CharacterController :=
  match cc.characterBody with
  | none => cc
  | some b =>
    if cc.isOnGround then
      let b2 : Body := { b with velocity := ⟨b.velocity.x, 10, b.velocity.z⟩ }
      { cc with characterBody := some b2 }
    else cc

/-- `Math.atan2(y, x)` (signed-zero edge cases aside): the angle of the point
`(x, y)` in `(-π, π]`. -/
noncomputable def atan2 (y x : ℝ) : ℝ :=
  if 0 < x then Real.arctan (y / x)
  else if x < 0 then
    (if 0 ≤ y then Real.arctan (y / x) + Real.pi
     else Real.arctan (y / x) - Real.pi)
  else
    (if 0 < y then Real.pi / 2
     else if y < 0 then -(Real.pi / 2)
     else 0)

/-- `computeRotationForVisual()`: returns the facing angle and the updated
controller.  Without a body, the stored angle is returned.  If the horizontal
squared speed is below 0.001, the stored angle is returned unchanged;
otherwise the angle `atan2(vx, vz) + π/2` is computed, stored, and
returned. -/
noncomputable def CharacterController.computeRotationForVisual
    (cc : CharacterController) : ℝ × CharacterController :=
  match cc.characterBody with
  | none => (cc.lastAngle, cc)
  | some b =>
    if b.velocity.x * b.velocity.x + b.velocity.z * b.velocity.z < 0.001 then
      (cc.lastAngle, cc)
    else
      (atan2 b.velocity.x b.velocity.z + Real.pi / 2,
       { cc with lastAngle := atan2 b.velocity.x b.velocity.z + Real.pi / 2 })

/-! ### ThreeScene: animation actions and the exclusive-mode flags -/

/-- Loop mode of a `THREE.AnimationAction` (`LoopOnce` / `LoopRepeat`). -/
inductive LoopMode where
  | loopOnce
  | loopRepeat
deriving DecidableEq

/-- The mutable playback parameters of an action handle that the controller
writes: loop mode and `clampWhenFinished`. -/
structure ActionParams where
  loop : LoopMode
  clampWhenFinished : Bool
deriving DecidableEq

/-- Default parameters of a freshly created clip action (`LoopRepeat`,
no clamping). -/
def ActionParams.fresh : ActionParams :=
  { loop := .loopRepeat, clampWhenFinished := false }

/-- The `actions` table `{ [key: string]: AnimationAction }` as an
association list (first binding wins, mirroring unique clip names). -/
def lookupA : List (String × ActionParams) → String → Option ActionParams
  | [], _ => none
  | (k, v) :: rest, n => if k = n then some v else lookupA rest n

/-- Overwrite the playback parameters stored under a name (mutating the
handle in place; the key set is unchanged). -/
def updateA : List (String × ActionParams) → String → ActionParams →
    List (String × ActionParams)
  | [], _, _ => []
  | (k, v) :: rest, n, p =>
    if k = n then (k, p) :: updateA rest n p else (k, v) :: updateA rest n p

/-- The logical state of `ThreeScene`: whether the mixer exists (asset load
completed), the action table, `currentActionName`, the four mode flags, and
the pending `setTimeout` callbacks: `sitPend` holds the `willSit` value of a
scheduled sit/stand finalizer, `jumpPend`/`attackPend` count scheduled jump
and attack finalizers. -/
structure TS where
  mixer : Bool
  actions : List (String × ActionParams)
  currentActionName : Option String
  isSitting : Bool
  isAnimating : Bool
  isJumping : Bool
  isAttacking : Bool
  sitPend : Option Bool
  jumpPend : Nat
  attackPend : Nat
deriving DecidableEq

/-- The scene state right after construction: no mixer, empty action table,
no current action, all flags false, no pending timers. -/
def TS.initTS : TS where
  mixer := false
  actions := []
  currentActionName := none
  isSitting := false
  isAnimating := false
  isJumping := false
  isAttacking := false
  sitPend := none
  jumpPend := 0
  attackPend := 0

/-- `playAnimation(name)`: no mixer or unknown name is a no-op; otherwise the
old action fades out (no logical effect), and the new action gets
`LoopOnce` + `clampWhenFinished` when the name is `'Sit down'` and
`LoopRepeat` without clamping otherwise, then `currentActionName := name`. -/
def playAnimation (name : String) (s : TS) : TS :=
  if s.mixer = false then s
  else
    match lookupA s.actions name with
    | none => s
    | some _ =>
      let p : ActionParams :=
        if name = "Sit down" then ⟨.loopOnce, true⟩ else ⟨.loopRepeat, false⟩
      { s with actions := updateA s.actions name p,
               currentActionName := some name }

/-- `playSitAnimation(clipName, durationSeconds, willSit)`: set `isAnimating`,
play the clip, and schedule the finalizer that will set
`isSitting := willSit`. -/
def playSitAnimation (clipName : String) (willSit : Bool) (s : TS) : TS :=
  { playAnimation clipName { s with isAnimating := true } with
      sitPend := some willSit }

/-- `handleSitToggle()`: rejected during a transition, a jump or an attack;
otherwise start `'Sit down'` (target sitting) or `'Sit up'` (target
standing). -/
def handleSitToggle (s : TS) : TS :=
  if s.isAnimating || s.isJumping || s.isAttacking then s
  else if s.isSitting = false then playSitAnimation "Sit down" true s
  else playSitAnimation "Sit up" false s

/-- The sit/stand `setTimeout` firing: finalize `isSitting`, clear
`isAnimating`, and if now standing play `'Idle'` when available. -/
def fireSitTimer (s : TS) : TS :=
  match s.sitPend with
  | none => s
  | some willSit =>
    if willSit = false ∧ (lookupA s.actions "Idle").isSome then
      playAnimation "Idle"
        { s with isSitting := willSit, isAnimating := false, sitPend := none }
    else { s with isSitting := willSit, isAnimating := false, sitPend := none }

/-- `handleJump()`: rejected while sitting, jumping, attacking or in a
sit/stand transition, and when no `'PartialIdleJump'` action exists;
otherwise set `isJumping`, configure and play the jump clip
(`Once` + clamp), point `currentActionName` at it and schedule the
finalizer. -/
def handleJump (s : TS) : TS :=
  if s.isSitting || s.isJumping || s.isAttacking || s.isAnimating then s
  else
    match lookupA s.actions "PartialIdleJump" with
    | none => s
    | some _ =>
      { s with isJumping := true,
               actions := updateA s.actions "PartialIdleJump" ⟨.loopOnce, true⟩,
               currentActionName := some "PartialIdleJump",
               jumpPend := s.jumpPend + 1 }

/-- The jump `setTimeout` firing: clear `isJumping` and play `'Idle'` when
available. -/
def fireJumpTimer (s : TS) : TS :=
  match s.jumpPend with
  | 0 => s
  | n + 1 =>
    if (lookupA s.actions "Idle").isSome then
      playAnimation "Idle" { s with isJumping := false, jumpPend := n }
    else { s with isJumping := false, jumpPend := n }

/-- `handleAttack()`: rejected while sitting, jumping, attacking or in a
sit/stand transition, and when no `'Attack'` action exists; otherwise set
`isAttacking`, configure and play the attack clip (`Once` + clamp), point
`currentActionName` at it and schedule the finalizer. -/
def handleAttack (s : TS) : TS :=
  if s.isSitting || s.isJumping || s.isAttacking || s.isAnimating then s
  else
    match lookupA s.actions "Attack" with
    | none => s
    | some _ =>
      { s with isAttacking := true,
               actions := updateA s.actions "Attack" ⟨.loopOnce, true⟩,
               currentActionName := some "Attack",
               attackPend := s.attackPend + 1 }

/-- The attack `setTimeout` firing: clear `isAttacking` and play `'Idle'`
when available. -/
def fireAttackTimer (s : TS) : TS :=
  match s.attackPend with
  | 0 => s
  | n + 1 =>
    if (lookupA s.actions "Idle").isSome then
      playAnimation "Idle" { s with isAttacking := false, attackPend := n }
    else { s with isAttacking := false, attackPend := n }

/-- Asset-load completion (`loadCharacter`'s success callback): create the
mixer, install the action table, then start `'Idle'` if present, otherwise
the first available clip.  Loading happens at most once. -/
def loadAssets (table : List (String × ActionParams)) (s : TS) : TS :=
  if s.mixer then s
  else if (lookupA table "Idle").isSome then
    playAnimation "Idle" { s with mixer := true, actions := table }
  else
    match table.head? with
    | some (n, _) => playAnimation n { s with mixer := true, actions := table }
    | none => { s with mixer := true, actions := table }

/-- The Walk/Idle auto-selection block of `animate()`: when no mode flag is
set, cross-fade to `'Walk'` or back to `'Idle'` according to the movement
keys (`moving` is `isMoving()`). -/
def walkIdleReeval (moving : Bool) (s : TS) : TS :=
  if s.isJumping = false ∧ s.isAttacking = false ∧ s.isSitting = false ∧
      s.isAnimating = false then
    if moving then
      if s.currentActionName ≠ some "Walk" ∧ (lookupA s.actions "Walk").isSome
      then playAnimation "Walk" (playAnimation "Walk Start" s)
      else s
    else
      if s.currentActionName ≠ some "Idle" ∧ (lookupA s.actions "Idle").isSome
      then playAnimation "Idle" (playAnimation "Walk stop" s)
      else s
  else s

/-- One pass of the state-touching part of `animate()`: finish the jump arc
when its wall-clock duration has elapsed (clearing `isJumping`), then run
the Walk/Idle re-evaluation.  The locomotion update, physics step, transform
sync, mixer update, camera follow and render mutate none of the modeled
fields. -/
def frameTick (moving arcElapsed : Bool) (s : TS) : TS :=
  walkIdleReeval moving
    (if s.isJumping ∧ arcElapsed then { s with isJumping := false } else s)

/-- `onClick`: blocked during a sit/stand transition and while not sitting;
otherwise the raycast hits (`hits`, nearest first, as returned by
`raycaster.intersectObjects`) trigger at most one callback invocation with
the nearest hit's name.  The scene state is never mutated. -/
def onClick (hits : List String) (s : TS) : TS × Option String :=
  if s.isAnimating then (s, none)
  else if s.isSitting = false then (s, none)
  else
    match hits with
    | [] => (s, none)
    | h :: _ => (s, some h)

/-- The events that drive the controller: the three action-triggering inputs,
the three timer firings, a frame tick, and asset-load completion. -/
inductive Event where
  | sitToggle
  | jumpKey
  | attackKey
  | sitTimer
  | jumpTimer
  | attackTimer
  | frame (moving arcElapsed : Bool)
  | load (table : List (String × ActionParams))

/-- The transition function: dispatch an event to its handler. -/
def stepEv : Event → TS → TS
  | .sitToggle, s => handleSitToggle s
  | .jumpKey, s => handleJump s
  | .attackKey, s => handleAttack s
  | .sitTimer, s => fireSitTimer s
  | .jumpTimer, s => fireJumpTimer s
  | .attackTimer, s => fireAttackTimer s
  | .frame m a, s => frameTick m a s
  | .load t, s => loadAssets t s

/-- Reachability from the freshly constructed scene under any event
sequence. -/
inductive Reachable : TS → Prop where
  | init : Reachable TS.initTS
  | step {s : TS} (h : Reachable s) (e : Event) : Reachable (stepEv e s)

/-- The parameters `playAnimation` writes for a given clip name. -/
def paramsFor (name : String) : ActionParams :=
  if name = "Sit down" then ⟨.loopOnce, true⟩ else ⟨.loopRepeat, false⟩

/-- The five exclusive modes of the spec's action state machine. -/
inductive Mode where
  | locomoting
  | sitTransition
  | seated
  | jumping
  | attacking
deriving DecidableEq

/-- The mode determined by the four flags (the flags are exclusive on
reachable states, with `isSitting` persisting under `isAnimating` during a
stand-up transition, so jumping/attacking/transitioning take priority). -/
def modeOf (s : TS) : Mode :=
  if s.isJumping then .jumping
  else if s.isAttacking then .attacking
  else if s.isAnimating then .sitTransition
  else if s.isSitting then .seated
  else .locomoting

/-- The gate in `animate()` in front of `characterController.update(keys)`:
the locomotion update runs iff none of `isSitting`, `isAnimating`,
`isAttacking` is set. -/
def locomotionRuns (s : TS) : Bool :=
  !s.isSitting && !s.isAnimating && !s.isAttacking

/-! ### Basic lemmas about the action table and `playAnimation` -/

theorem lookupA_updateA_isSome (l : List (String × ActionParams))
    (n m : String) (p : ActionParams) :
    (lookupA (updateA l n p) m).isSome = (lookupA l m).isSome := by
  induction l with
  | nil => rfl
  | cons kv rest ih =>
    obtain ⟨k, v⟩ := kv
    by_cases hk : k = n
    · simp only [updateA, if_pos hk, lookupA]
      by_cases hm : k = m
      · simp [hm]
      · simp [hm, ih]
    · simp only [updateA, if_neg hk, lookupA]
      by_cases hm : k = m
      · simp [hm]
      · simp [hm, ih]

theorem lookupA_updateA_self (l : List (String × ActionParams))
    (n : String) (p : ActionParams) (h : (lookupA l n).isSome = true) :
    lookupA (updateA l n p) n = some p := by
  induction l with
  | nil => simp [lookupA] at h
  | cons kv rest ih =>
    obtain ⟨k, v⟩ := kv
    unfold lookupA at h
    unfold updateA
    by_cases hk : k = n
    · simp [hk, lookupA]
    · rw [if_neg hk]
      unfold lookupA
      rw [if_neg hk]
      rw [if_neg hk] at h
      exact ih h

/-- `playAnimation` either does nothing (no mixer or unknown name) or
rewrites the named handle's parameters and points `currentActionName` at
the name. -/
theorem playAnimation_eq (n : String) (s : TS) :
    playAnimation n s = s ∨
      (s.mixer = true ∧ (lookupA s.actions n).isSome = true ∧
        playAnimation n s =
          { s with actions := updateA s.actions n (paramsFor n),
                   currentActionName := some n }) := by
  unfold playAnimation
  by_cases hm : s.mixer = false
  · simp [hm]
  · rw [if_neg hm]
    cases hl : lookupA s.actions n with
    | none => exact Or.inl rfl
    | some p =>
      right
      refine ⟨?_, by simp [hl], rfl⟩
      revert hm
      cases s.mixer <;> simp

theorem pa_isSitting (n : String) (s : TS) :
    (playAnimation n s).isSitting = s.isSitting := by
  rcases playAnimation_eq n s with h | ⟨_, _, h⟩ <;> rw [h]

theorem pa_isAnimating (n : String) (s : TS) :
    (playAnimation n s).isAnimating = s.isAnimating := by
  rcases playAnimation_eq n s with h | ⟨_, _, h⟩ <;> rw [h]

theorem pa_isJumping (n : String) (s : TS) :
    (playAnimation n s).isJumping = s.isJumping := by
  rcases playAnimation_eq n s with h | ⟨_, _, h⟩ <;> rw [h]

theorem pa_isAttacking (n : String) (s : TS) :
    (playAnimation n s).isAttacking = s.isAttacking := by
  rcases playAnimation_eq n s with h | ⟨_, _, h⟩ <;> rw [h]

theorem pa_sitPend (n : String) (s : TS) :
    (playAnimation n s).sitPend = s.sitPend := by
  rcases playAnimation_eq n s with h | ⟨_, _, h⟩ <;> rw [h]

theorem pa_mixer (n : String) (s : TS) :
    (playAnimation n s).mixer = s.mixer := by
  rcases playAnimation_eq n s with h | ⟨_, _, h⟩ <;> rw [h]

theorem pa_lookup_isSome (n m : String) (s : TS) :
    (lookupA (playAnimation n s).actions m).isSome =
      (lookupA s.actions m).isSome := by
  rcases playAnimation_eq n s with h | ⟨_, _, h⟩ <;> rw [h]
  rw [lookupA_updateA_isSome]

/-! ### The inductive invariant of the scene state -/

/-- The inductive invariant: flag exclusivity, a pending sit timer only
during a transition, `currentActionName` always backed by the table, and,
before the assets load, an empty table and no current action. -/
def Inv (s : TS) : Prop :=
  (s.isAnimating = true → s.isJumping = false ∧ s.isAttacking = false) ∧
  (s.isJumping = true → s.isAttacking = false ∧ s.isSitting = false) ∧
  (s.sitPend.isSome = true → s.isAnimating = true) ∧
  (∀ m, s.currentActionName = some m → (lookupA s.actions m).isSome = true) ∧
  (s.mixer = false → s.actions = [] ∧ s.currentActionName = none)

theorem inv_playAnimation (n : String) {s : TS} (h : Inv s) :
    Inv (playAnimation n s) := by
  rcases playAnimation_eq n s with heq | ⟨hm, hl, heq⟩
  · rw [heq]; exact h
  · rw [heq]
    obtain ⟨h1, h2, h3, h4, h5⟩ := h
    refine ⟨h1, h2, h3, ?_, ?_⟩
    · intro m hm'
      simp only [Option.some.injEq] at hm'
      subst hm'
      rw [lookupA_updateA_isSome]
      exact hl
    · intro hf
      rw [hm] at hf
      cases hf

theorem inv_playSitAnimation (clip : String) (w : Bool) {s : TS} (h : Inv s)
    (hj : s.isJumping = false) (ha : s.isAttacking = false) :
    Inv (playSitAnimation clip w s) := by
  obtain ⟨h1, h2, h3, h4, h5⟩ := h
  have hs1 : Inv { s with isAnimating := true } := by
    refine ⟨fun _ => ⟨hj, ha⟩, ?_, fun _ => rfl, h4, h5⟩
    intro hjj
    exact ⟨(h2 hjj).1, (h2 hjj).2⟩
  obtain ⟨g1, g2, g3, g4, g5⟩ := inv_playAnimation clip hs1
  unfold playSitAnimation
  refine ⟨?_, ?_, ?_, g4, g5⟩
  · intro _
    exact g1 (by rw [pa_isAnimating])
  · intro hjj
    exact g2 hjj
  · intro _
    show (playAnimation clip { s with isAnimating := true }).isAnimating = true
    rw [pa_isAnimating]

theorem inv_handleSitToggle {s : TS} (h : Inv s) : Inv (handleSitToggle s) := by
  unfold handleSitToggle
  by_cases hg : (s.isAnimating || s.isJumping || s.isAttacking) = true
  · rw [if_pos hg]; exact h
  · have hflags := hg
    simp only [Bool.or_eq_true, not_or, Bool.not_eq_true] at hflags
    obtain ⟨⟨han, hj⟩, ha⟩ := hflags
    rw [if_neg hg]
    by_cases hs : s.isSitting = false
    · rw [if_pos hs]
      exact inv_playSitAnimation _ _ ⟨h.1, h.2.1, h.2.2.1, h.2.2.2.1, h.2.2.2.2⟩ hj ha
    · rw [if_neg hs]
      exact inv_playSitAnimation _ _ ⟨h.1, h.2.1, h.2.2.1, h.2.2.2.1, h.2.2.2.2⟩ hj ha

theorem inv_fireSitTimer {s : TS} (h : Inv s) : Inv (fireSitTimer s) := by
  obtain ⟨h1, h2, h3, h4, h5⟩ := h
  unfold fireSitTimer
  split
  · exact ⟨h1, h2, h3, h4, h5⟩
  · rename_i w hp
    have han : s.isAnimating = true := h3 (by rw [hp]; rfl)
    have hj : s.isJumping = false := (h1 han).1
    have hs1 : Inv { s with isSitting := w, isAnimating := false,
                            sitPend := none } := by
      refine ⟨?_, ?_, ?_, h4, h5⟩ <;> intro hx <;> simp_all
    split
    · exact inv_playAnimation _ hs1
    · exact hs1

theorem inv_handleJump {s : TS} (h : Inv s) : Inv (handleJump s) := by
  obtain ⟨h1, h2, h3, h4, h5⟩ := h
  unfold handleJump
  split
  · exact ⟨h1, h2, h3, h4, h5⟩
  · rename_i hg
    have hflags := hg
    simp only [Bool.or_eq_true, not_or, Bool.not_eq_true] at hflags
    obtain ⟨⟨⟨hs, hj⟩, ha⟩, han⟩ := hflags
    split
    · exact ⟨h1, h2, h3, h4, h5⟩
    · rename_i p hl
      refine ⟨?_, ?_, ?_, ?_, ?_⟩
      · intro hf
        have hf' : s.isAnimating = true := hf
        rw [han] at hf'
        exact Bool.noConfusion hf'
      · intro _
        exact ⟨ha, hs⟩
      · intro hsp
        have hsp' : s.sitPend.isSome = true := hsp
        have := h3 hsp'
        rw [han] at this
        exact Bool.noConfusion this
      · intro m hm'
        simp only [Option.some.injEq] at hm'
        subst hm'
        show (lookupA (updateA s.actions "PartialIdleJump" ⟨.loopOnce, true⟩)
            "PartialIdleJump").isSome = true
        rw [lookupA_updateA_isSome]
        rw [hl]
        rfl
      · intro hmix
        obtain ⟨hact, _⟩ := h5 hmix
        rw [hact] at hl
        cases hl

theorem inv_fireJumpTimer {s : TS} (h : Inv s) : Inv (fireJumpTimer s) := by
  obtain ⟨h1, h2, h3, h4, h5⟩ := h
  unfold fireJumpTimer
  split
  · exact ⟨h1, h2, h3, h4, h5⟩
  · rename_i n hp
    have hs1 : Inv { s with isJumping := false, jumpPend := n } := by
      refine ⟨?_, ?_, h3, h4, h5⟩ <;> intro hx <;> simp_all
    split
    · exact inv_playAnimation _ hs1
    · exact hs1

theorem inv_handleAttack {s : TS} (h : Inv s) : Inv (handleAttack s) := by
  obtain ⟨h1, h2, h3, h4, h5⟩ := h
  unfold handleAttack
  split
  · exact ⟨h1, h2, h3, h4, h5⟩
  · rename_i hg
    have hflags := hg
    simp only [Bool.or_eq_true, not_or, Bool.not_eq_true] at hflags
    obtain ⟨⟨⟨hs, hj⟩, ha⟩, han⟩ := hflags
    split
    · exact ⟨h1, h2, h3, h4, h5⟩
    · rename_i p hl
      refine ⟨?_, ?_, ?_, ?_, ?_⟩
      · intro hf
        have hf' : s.isAnimating = true := hf
        rw [han] at hf'
        exact Bool.noConfusion hf'
      · intro hf
        have hf' : s.isJumping = true := hf
        rw [hj] at hf'
        exact Bool.noConfusion hf'
      · intro hsp
        have hsp' : s.sitPend.isSome = true := hsp
        have := h3 hsp'
        rw [han] at this
        exact Bool.noConfusion this
      · intro m hm'
        simp only [Option.some.injEq] at hm'
        subst hm'
        show (lookupA (updateA s.actions "Attack" ⟨.loopOnce, true⟩)
            "Attack").isSome = true
        rw [lookupA_updateA_isSome]
        rw [hl]
        rfl
      · intro hmix
        obtain ⟨hact, _⟩ := h5 hmix
        rw [hact] at hl
        cases hl

theorem inv_fireAttackTimer {s : TS} (h : Inv s) : Inv (fireAttackTimer s) := by
  obtain ⟨h1, h2, h3, h4, h5⟩ := h
  unfold fireAttackTimer
  split
  · exact ⟨h1, h2, h3, h4, h5⟩
  · rename_i n hp
    have hs1 : Inv { s with isAttacking := false, attackPend := n } := by
      refine ⟨?_, ?_, h3, h4, h5⟩ <;> intro hx <;> simp_all
    split
    · exact inv_playAnimation _ hs1
    · exact hs1

theorem inv_loadAssets (table : List (String × ActionParams)) {s : TS}
    (h : Inv s) : Inv (loadAssets table s) := by
  obtain ⟨h1, h2, h3, h4, h5⟩ := h
  unfold loadAssets
  by_cases hm : s.mixer = true
  · rw [if_pos hm]
    exact ⟨h1, h2, h3, h4, h5⟩
  · rw [if_neg hm]
    rw [Bool.not_eq_true] at hm
    obtain ⟨hact, hcan⟩ := h5 hm
    have hs1 : Inv { s with mixer := true, actions := table } := by
      refine ⟨h1, h2, h3, ?_, ?_⟩
      · intro m hm'
        rw [show ({ s with mixer := true, actions := table } :
            TS).currentActionName = s.currentActionName from rfl, hcan] at hm'
        cases hm'
      · intro hf; cases hf
    split
    · exact inv_playAnimation _ hs1
    · split
      · exact inv_playAnimation _ hs1
      · exact hs1

theorem inv_walkIdleReeval (moving : Bool) {s : TS} (h : Inv s) :
    Inv (walkIdleReeval moving s) := by
  unfold walkIdleReeval
  split
  · split
    · split
      · exact inv_playAnimation _ (inv_playAnimation _ h)
      · exact h
    · split
      · exact inv_playAnimation _ (inv_playAnimation _ h)
      · exact h
  · exact h

theorem inv_frameTick (moving arcElapsed : Bool) {s : TS} (h : Inv s) :
    Inv (frameTick moving arcElapsed s) := by
  obtain ⟨h1, h2, h3, h4, h5⟩ := h
  unfold frameTick
  apply inv_walkIdleReeval
  split
  · refine ⟨?_, ?_, h3, h4, h5⟩ <;> intro hx <;> simp_all
  · exact ⟨h1, h2, h3, h4, h5⟩

/-- The invariant holds in the initial state. -/
theorem inv_init : Inv TS.initTS := by
  refine ⟨?_, ?_, ?_, ?_, ?_⟩
  · intro h; simp [TS.initTS] at h
  · intro h; simp [TS.initTS] at h
  · intro h; simp [TS.initTS] at h
  · intro m hm; simp [TS.initTS] at hm
  · intro _; exact ⟨rfl, rfl⟩

/-- The invariant is preserved by every event. -/
theorem inv_step (e : Event) {s : TS} (h : Inv s) : Inv (stepEv e s) := by
  cases e with
  | sitToggle => exact inv_handleSitToggle h
  | jumpKey => exact inv_handleJump h
  | attackKey => exact inv_handleAttack h
  | sitTimer => exact inv_fireSitTimer h
  | jumpTimer => exact inv_fireJumpTimer h
  | attackTimer => exact inv_fireAttackTimer h
  | frame m a => exact inv_frameTick m a h
  | load t => exact inv_loadAssets t h

/-- Every reachable state satisfies the invariant. -/
theorem reachable_inv {s : TS} (h : Reachable s) : Inv s := by
  induction h with
  | init => exact inv_init
  | step _ e ih => exact inv_step e ih

/-! ### `isSitting` is only written by the sit/stand timer -/

theorem pa_no_mixer (n : String) {s : TS} (h : s.mixer = false) :
    playAnimation n s = s := by
  unfold playAnimation
  rw [if_pos h]

theorem playSitAnimation_isSitting (clip : String) (w : Bool) (s : TS) :
    (playSitAnimation clip w s).isSitting = s.isSitting := by
  show (playAnimation clip { s with isAnimating := true }).isSitting = s.isSitting
  rw [pa_isSitting]

theorem handleSitToggle_isSitting (s : TS) :
    (handleSitToggle s).isSitting = s.isSitting := by
  unfold handleSitToggle
  split
  · rfl
  · split
    · exact playSitAnimation_isSitting _ _ _
    · exact playSitAnimation_isSitting _ _ _

theorem handleJump_isSitting (s : TS) :
    (handleJump s).isSitting = s.isSitting := by
  unfold handleJump
  split
  · rfl
  · split
    · rfl
    · rfl

theorem handleAttack_isSitting (s : TS) :
    (handleAttack s).isSitting = s.isSitting := by
  unfold handleAttack
  split
  · rfl
  · split
    · rfl
    · rfl

theorem fireJumpTimer_isSitting (s : TS) :
    (fireJumpTimer s).isSitting = s.isSitting := by
  unfold fireJumpTimer
  split
  · rfl
  · split
    · rw [pa_isSitting]
    · rfl

theorem fireAttackTimer_isSitting (s : TS) :
    (fireAttackTimer s).isSitting = s.isSitting := by
  unfold fireAttackTimer
  split
  · rfl
  · split
    · rw [pa_isSitting]
    · rfl

theorem loadAssets_isSitting (table : List (String × ActionParams)) (s : TS) :
    (loadAssets table s).isSitting = s.isSitting := by
  unfold loadAssets
  split
  · rfl
  · split
    · rw [pa_isSitting]
    · split
      · rw [pa_isSitting]
      · rfl

theorem walkIdleReeval_isSitting (moving : Bool) (s : TS) :
    (walkIdleReeval moving s).isSitting = s.isSitting := by
  unfold walkIdleReeval
  split
  · split
    · split
      · rw [pa_isSitting, pa_isSitting]
      · rfl
    · split
      · rw [pa_isSitting, pa_isSitting]
      · rfl
  · rfl

theorem frameTick_isSitting (moving arcElapsed : Bool) (s : TS) :
    (frameTick moving arcElapsed s).isSitting = s.isSitting := by
  unfold frameTick
  rw [walkIdleReeval_isSitting]
  split
  · rfl
  · rfl

theorem fireSitTimer_isSitting_ne {s : TS}
    (h : (fireSitTimer s).isSitting ≠ s.isSitting) : s.sitPend.isSome = true := by
  revert h
  unfold fireSitTimer
  split
  · intro h
    exact absurd rfl h
  · rename_i w hp
    intro _
    rw [hp]
    rfl

theorem fireSitTimer_isSitting_of_pend {s : TS} {w : Bool}
    (hp : s.sitPend = some w) : (fireSitTimer s).isSitting = w := by
  unfold fireSitTimer
  split
  · rename_i hpn
    rw [hpn] at hp
    cases hp
  · rename_i w' hp'
    have hw : w' = w := by
      rw [hp'] at hp
      injection hp
    subst hw
    split
    · rw [pa_isSitting]
    · rfl

/-! ### Claim theorems -/

/-- C1: on every reachable state of the controller, at most one of the flags
`isAnimating` (sit/stand transition), `isJumping`, `isAttacking` is true, and
no input event or timer firing changes `isSitting` unless it is the sit/stand
transition timer firing while the transition is in progress
(`isAnimating = true`). -/
theorem mode_exclusivity (s : TS) (h : Reachable s) :
    ((if s.isAnimating = true then 1 else 0) +
      (if s.isJumping = true then 1 else 0) +
      (if s.isAttacking = true then 1 else 0) ≤ 1) ∧
    (∀ e : Event, (stepEv e s).isSitting ≠ s.isSitting →
      e = Event.sitTimer ∧ s.isAnimating = true) := by
  obtain ⟨h1, h2, h3, _, _⟩ := reachable_inv h
  constructor
  · cases han : s.isAnimating <;> cases hj : s.isJumping <;>
      cases ha : s.isAttacking <;> simp_all
  · intro e he
    cases e with
    | sitToggle => exact absurd (handleSitToggle_isSitting s) he
    | jumpKey => exact absurd (handleJump_isSitting s) he
    | attackKey => exact absurd (handleAttack_isSitting s) he
    | sitTimer => exact ⟨rfl, h3 (fireSitTimer_isSitting_ne he)⟩
    | jumpTimer => exact absurd (fireJumpTimer_isSitting s) he
    | attackTimer => exact absurd (fireAttackTimer_isSitting s) he
    | frame m a => exact absurd (frameTick_isSitting m a s) he
    | load t => exact absurd (loadAssets_isSitting t s) he

/-- Witness for C1: the initial state is reachable and satisfies the flag
count bound. -/
theorem mode_exclusivity_witness :
    (if TS.initTS.isAnimating = true then 1 else 0) +
      (if TS.initTS.isJumping = true then 1 else 0) +
      (if TS.initTS.isAttacking = true then 1 else 0) ≤ 1 :=
  (mode_exclusivity TS.initTS Reachable.init).1

/-- C3: on every reachable state, the locomotion update of `animate()` runs
exactly when the derived mode is Locomoting or Jumping: it runs while
`isJumping` is true and is skipped whenever `isSitting`, `isAnimating` or
`isAttacking` is true. -/
theorem locomotion_gating (s : TS) (h : Reachable s) :
    (locomotionRuns s = true ↔
      (modeOf s = Mode.locomoting ∨ modeOf s = Mode.jumping)) ∧
    (s.isJumping = true → locomotionRuns s = true) ∧
    (s.isSitting = true ∨ s.isAnimating = true ∨ s.isAttacking = true →
      locomotionRuns s = false) := by
  obtain ⟨h1, h2, h3, _, _⟩ := reachable_inv h
  refine ⟨?_, ?_, ?_⟩
  · unfold locomotionRuns modeOf
    cases hj : s.isJumping <;> cases ha : s.isAttacking <;>
      cases han : s.isAnimating <;> cases hs : s.isSitting <;> simp_all
  · intro hj
    obtain ⟨ha, hs⟩ := h2 hj
    have han : s.isAnimating = false := by
      cases hx : s.isAnimating
      · rfl
      · rw [(h1 hx).1] at hj
        exact Bool.noConfusion hj
    unfold locomotionRuns
    rw [hs, han, ha]
    rfl
  · intro hor
    unfold locomotionRuns
    rcases hor with hx | hx | hx <;> rw [hx] <;> simp

/-- Witness for C3 at the reachable initial state. -/
theorem locomotion_gating_witness :
    locomotionRuns TS.initTS = true ↔
      (modeOf TS.initTS = Mode.locomoting ∨ modeOf TS.initTS = Mode.jumping) :=
  (locomotion_gating TS.initTS Reachable.init).1

/-- C2: `jump()` sets the vertical velocity to the takeoff speed 10 exactly
when the 0.55-unit downward ground probe hits at the moment of the request
(everything else about the body unchanged); when not grounded — including
when no body exists, in which case the probe reports no hit — the controller
is left entirely unchanged, so repeated airborne jump requests never add
vertical velocity. -/
theorem jump_iff_grounded (cc : CharacterController) :
    (∀ b : Body, cc.characterBody = some b → cc.isOnGround = true →
      cc.jump = ⟨some ⟨b.position, ⟨b.velocity.x, 10, b.velocity.z⟩, b.world⟩,
        cc.lastAngle⟩) ∧
    (cc.isOnGround = false → cc.jump = cc ∧ cc.jump.jump = cc.jump) := by
  obtain ⟨cb, la⟩ := cc
  constructor
  · intro b hb hg
    simp only at hb
    subst hb
    simp only [CharacterController.jump]
    rw [if_pos hg]
  · intro hg
    have hid : CharacterController.jump ⟨cb, la⟩ = ⟨cb, la⟩ := by
      cases cb with
      | none => rfl
      | some b =>
        simp only [CharacterController.jump]
        rw [if_neg (by rw [hg]; exact Bool.noConfusion)]
    exact ⟨hid, by rw [hid]; exact hid⟩

/-- Witness for C2: a grounded body (probe oracle always hits) gets vertical
velocity 10. -/
theorem jump_iff_grounded_witness :
    CharacterController.jump
        ⟨some ⟨⟨0, 0, 0⟩, ⟨1, 2, 3⟩, some (fun _ _ => true)⟩, 0⟩ =
      ⟨some ⟨⟨0, 0, 0⟩, ⟨1, 10, 3⟩, some (fun _ _ => true)⟩, 0⟩ :=
  (jump_iff_grounded
      ⟨some ⟨⟨0, 0, 0⟩, ⟨1, 2, 3⟩, some (fun _ _ => true)⟩, 0⟩).1
    ⟨⟨0, 0, 0⟩, ⟨1, 2, 3⟩, some (fun _ _ => true)⟩ rfl rfl

/-- C10: in the locomotion update, `KeyW` wins over `KeyS` (commanded
z-velocity is the full −15, not zero) and `KeyA` wins over `KeyD`
(commanded x-velocity −15) when the opposing keys are held together, the
vertical velocity passing through unchanged. -/
theorem opposing_keys (keys : String → Bool) (cc : CharacterController)
    (b : Body) (hb : cc.characterBody = some b) :
    (keys "KeyW" = true → keys "KeyS" = true →
      ((cc.update keys).characterBody.getD b).velocity.z = -15 ∧
      ((cc.update keys).characterBody.getD b).velocity.y = b.velocity.y) ∧
    (keys "KeyA" = true → keys "KeyD" = true →
      ((cc.update keys).characterBody.getD b).velocity.x = -15 ∧
      ((cc.update keys).characterBody.getD b).velocity.y = b.velocity.y) := by
  obtain ⟨cb, la⟩ := cc
  simp only at hb
  subst hb
  constructor
  · intro hW hS
    simp only [CharacterController.update]
    by_cases hA : keys "KeyA" = true
    · simp [hW, hA]
    · by_cases hD : keys "KeyD" = true
      · simp [hW, hA, hD]
      · simp [hW, hA, hD]
  · intro hA hD
    simp only [CharacterController.update]
    by_cases hW : keys "KeyW" = true
    · simp [hW, hA]
    · by_cases hS : keys "KeyS" = true
      · simp [hW, hS, hA]
      · simp [hW, hS, hA]

/-- Witness for C10: all four keys held on a concrete body. -/
theorem opposing_keys_witness :
    ((CharacterController.update (fun _ => true)
        ⟨some ⟨⟨0, 0, 0⟩, ⟨5, 7, 9⟩, none⟩, 0⟩).characterBody.getD
          ⟨⟨0, 0, 0⟩, ⟨5, 7, 9⟩, none⟩).velocity.z = -15 ∧
    ((CharacterController.update (fun _ => true)
        ⟨some ⟨⟨0, 0, 0⟩, ⟨5, 7, 9⟩, none⟩, 0⟩).characterBody.getD
          ⟨⟨0, 0, 0⟩, ⟨5, 7, 9⟩, none⟩).velocity.y = 7 :=
  (opposing_keys (fun _ => true) _ _ rfl).1 rfl rfl

/-- C6 (amended): `computeRotationForVisual` returns and stores
`atan2(vx, vz) + π/2` when the horizontal squared speed is at least 0.001,
and returns the previously stored angle, leaving the controller unchanged,
when it is below 0.001 (or no body exists) — the boundary case
`speed² = 0.001` computes a fresh angle rather than retaining. -/
theorem facing_angle_spec (cc : CharacterController) :
    (∀ b : Body, cc.characterBody = some b →
      (b.velocity.x * b.velocity.x + b.velocity.z * b.velocity.z < 0.001 →
        cc.computeRotationForVisual = (cc.lastAngle, cc)) ∧
      (0.001 ≤ b.velocity.x * b.velocity.x + b.velocity.z * b.velocity.z →
        cc.computeRotationForVisual =
          (atan2 b.velocity.x b.velocity.z + Real.pi / 2,
            ⟨cc.characterBody,
             atan2 b.velocity.x b.velocity.z + Real.pi / 2⟩))) ∧
    (cc.characterBody = none →
      cc.computeRotationForVisual = (cc.lastAngle, cc)) := by
  obtain ⟨cb, la⟩ := cc
  constructor
  · intro b hb
    simp only at hb
    subst hb
    constructor
    · intro hlt
      simp only [CharacterController.computeRotationForVisual]
      rw [if_pos hlt]
    · intro hge
      simp only [CharacterController.computeRotationForVisual]
      rw [if_neg (not_lt.mpr hge)]
  · intro hb
    simp only at hb
    subst hb
    rfl

/-- Witness for C6: a stationary body retains the stored angle 1. -/
theorem facing_angle_spec_witness :
    CharacterController.computeRotationForVisual
        ⟨some ⟨⟨0, 0, 0⟩, ⟨0, 0, 0⟩, none⟩, 1⟩ =
      (1, ⟨some ⟨⟨0, 0, 0⟩, ⟨0, 0, 0⟩, none⟩, 1⟩) :=
  ((facing_angle_spec _).1 _ rfl).1 (by norm_num)

/-- C6 counterexample: at the boundary input `vx = 1/100`, `vz = 3/100`
(squared speed exactly 0.001, hence not exceeding it) with stored angle 0,
the code computes a fresh positive angle instead of returning the stored
angle, refuting the claim's strict-excess reading. -/
theorem facing_angle_boundary_cex :
    ¬( (((1 : ℝ) / 100) * ((1 : ℝ) / 100) +
          ((3 : ℝ) / 100) * ((3 : ℝ) / 100) > 0.001 →
        (CharacterController.computeRotationForVisual
          ⟨some ⟨⟨0, 0, 0⟩, ⟨1 / 100, 0, 3 / 100⟩, none⟩, 0⟩).1 =
          atan2 (1 / 100) (3 / 100) + Real.pi / 2) ∧
       (¬(((1 : ℝ) / 100) * ((1 : ℝ) / 100) +
          ((3 : ℝ) / 100) * ((3 : ℝ) / 100) > 0.001) →
        (CharacterController.computeRotationForVisual
          ⟨some ⟨⟨0, 0, 0⟩, ⟨1 / 100, 0, 3 / 100⟩, none⟩, 0⟩).1 = 0) ) := by
  intro hcl
  have hng : ¬(((1 : ℝ) / 100) * ((1 : ℝ) / 100) +
      ((3 : ℝ) / 100) * ((3 : ℝ) / 100) > 0.001) := by norm_num
  have h0 := hcl.2 hng
  have heval : (CharacterController.computeRotationForVisual
      ⟨some ⟨⟨0, 0, 0⟩, ⟨1 / 100, 0, 3 / 100⟩, none⟩, 0⟩).1 =
      atan2 (1 / 100) (3 / 100) + Real.pi / 2 := by
    simp only [CharacterController.computeRotationForVisual]
    rw [if_neg (by norm_num)]
  have hpos : 0 < atan2 (1 / 100) (3 / 100) + Real.pi / 2 := by
    unfold atan2
    rw [if_pos (by norm_num : (0 : ℝ) < 3 / 100)]
    have h1 : -(Real.pi / 2) < Real.arctan ((1 / 100) / (3 / 100)) :=
      Real.neg_pi_div_two_lt_arctan _
    linarith
  rw [heval] at h0
  linarith

/-- C4 counterexample: `'Sit up'` is accepted by `playAnimation` on a table
containing it, yet its handle is left on `LoopRepeat` without clamping, so
Once+clamp does not hold exactly on the two sit clips. -/
theorem sit_up_not_clamped_cex :
    ¬((lookupA (playAnimation "Sit up"
          ⟨true, [("Sit up", ⟨.loopRepeat, false⟩)], none,
           false, false, false, false, none, 0, 0⟩).actions "Sit up" =
        some ⟨.loopOnce, true⟩) ↔
      ("Sit up" = "Sit down" ∨ "Sit up" = "Sit up")) := by
  decide

/-- C4 (amended): for every name accepted by `playAnimation` (mixer exists
and the name is in the table), the new action gets loop mode Once with
clamp-on-finish exactly when the name is `'Sit down'`, and Repeat without
clamping for every other name (including `'Sit up'`); `currentActionName`
is pointed at the accepted name. -/
theorem playAnimation_loop_discipline (s : TS) (name : String)
    (p : ActionParams) (hm : s.mixer = true)
    (hl : lookupA s.actions name = some p) :
    ((name = "Sit down" →
        lookupA (playAnimation name s).actions name = some ⟨.loopOnce, true⟩) ∧
      (name ≠ "Sit down" →
        lookupA (playAnimation name s).actions name =
          some ⟨.loopRepeat, false⟩)) ∧
    (playAnimation name s).currentActionName = some name := by
  have hsome : (lookupA s.actions name).isSome = true := by rw [hl]; rfl
  have hpa : playAnimation name s =
      { s with actions := updateA s.actions name (paramsFor name),
               currentActionName := some name } := by
    simp [playAnimation, hm, hl, paramsFor]
  rw [hpa]
  refine ⟨⟨?_, ?_⟩, rfl⟩
  · intro hn
    show lookupA (updateA s.actions name (paramsFor name)) name = _
    rw [lookupA_updateA_self _ _ _ hsome]
    unfold paramsFor
    rw [if_pos hn]
  · intro hn
    show lookupA (updateA s.actions name (paramsFor name)) name = _
    rw [lookupA_updateA_self _ _ _ hsome]
    unfold paramsFor
    rw [if_neg hn]

/-- Witness for C4 at a concrete table holding the sit-down clip. -/
theorem playAnimation_loop_discipline_witness :
    lookupA (playAnimation "Sit down"
        ⟨true, [("Sit down", ActionParams.fresh)], none,
         false, false, false, false, none, 0, 0⟩).actions "Sit down" =
      some ⟨.loopOnce, true⟩ :=
  ((playAnimation_loop_discipline _ "Sit down" ActionParams.fresh rfl
      (by decide)).1).1 rfl

/-- C5 counterexample: before assets load, the sit-toggle is not ignored —
it flips `isAnimating` to true (and schedules the sit finalizer) even though
no animation can play. -/
theorem preload_sit_toggle_not_noop_cex :
    ¬((handleSitToggle TS.initTS).isAnimating = TS.initTS.isAnimating) := by
  decide

/-- C5 (amended): before asset loading completes (no mixer, empty action
table) jump and attack inputs are complete no-ops and the sit-toggle does
not crash and leaves `isSitting`, `isJumping`, `isAttacking` and
`currentActionName` unchanged at the moment of the keypress — but, unless
already blocked, it does set `isAnimating` to true and schedules the sit
finalizer (`sitPend` becomes the toggled target), whose later firing flips
`isSitting`. -/
theorem preload_input_safety (s : TS) (hm : s.mixer = false)
    (ha : s.actions = []) :
    handleJump s = s ∧ handleAttack s = s ∧
    (handleSitToggle s).isSitting = s.isSitting ∧
    (handleSitToggle s).isJumping = s.isJumping ∧
    (handleSitToggle s).isAttacking = s.isAttacking ∧
    (handleSitToggle s).currentActionName = s.currentActionName ∧
    (s.isAnimating = false → s.isJumping = false → s.isAttacking = false →
      (handleSitToggle s).isAnimating = true ∧
      (handleSitToggle s).sitPend = some (!s.isSitting) ∧
      (fireSitTimer (handleSitToggle s)).isSitting = (!s.isSitting)) := by
  have hJ : handleJump s = s := by
    unfold handleJump
    split
    · rfl
    · rw [ha]
      rfl
  have hA : handleAttack s = s := by
    unfold handleAttack
    split
    · rfl
    · rw [ha]
      rfl
  have key : ∀ clip w,
      (playSitAnimation clip w s).isSitting = s.isSitting ∧
      (playSitAnimation clip w s).isJumping = s.isJumping ∧
      (playSitAnimation clip w s).isAttacking = s.isAttacking ∧
      (playSitAnimation clip w s).currentActionName = s.currentActionName ∧
      (playSitAnimation clip w s).isAnimating = true := by
    intro clip w
    have hmix1 : ({ s with isAnimating := true } : TS).mixer = false := hm
    have hid := pa_no_mixer clip hmix1
    unfold playSitAnimation
    rw [hid]
    exact ⟨rfl, rfl, rfl, rfl, rfl⟩
  by_cases hg : (s.isAnimating || s.isJumping || s.isAttacking) = true
  · have hst : handleSitToggle s = s := by
      unfold handleSitToggle
      rw [if_pos hg]
    refine ⟨hJ, hA, by rw [hst], by rw [hst], by rw [hst], by rw [hst], ?_⟩
    intro han hj hatt
    rw [han, hj, hatt] at hg
    simp at hg
  · by_cases hsit : s.isSitting = false
    · have hst : handleSitToggle s = playSitAnimation "Sit down" true s := by
        unfold handleSitToggle
        rw [if_neg hg, if_pos hsit]
      obtain ⟨k1, k2, k3, k4, k5⟩ := key "Sit down" true
      exact ⟨hJ, hA, by rw [hst]; exact k1, by rw [hst]; exact k2,
        by rw [hst]; exact k3, by rw [hst]; exact k4,
        fun _ _ _ => by
          rw [hst, hsit]
          exact ⟨k5, rfl, fireSitTimer_isSitting_of_pend rfl⟩⟩
    · have hst : handleSitToggle s = playSitAnimation "Sit up" false s := by
        unfold handleSitToggle
        rw [if_neg hg, if_neg hsit]
      have hsitT : s.isSitting = true := by
        cases hx : s.isSitting
        · exact absurd hx hsit
        · rfl
      obtain ⟨k1, k2, k3, k4, k5⟩ := key "Sit up" false
      exact ⟨hJ, hA, by rw [hst]; exact k1, by rw [hst]; exact k2,
        by rw [hst]; exact k3, by rw [hst]; exact k4,
        fun _ _ _ => by
          rw [hst, hsitT]
          exact ⟨k5, rfl, fireSitTimer_isSitting_of_pend rfl⟩⟩

/-- Witness for C5: at the freshly constructed scene the jump input is a
complete no-op. -/
theorem preload_input_safety_witness :
    handleJump TS.initTS = TS.initTS :=
  (preload_input_safety TS.initTS rfl rfl).1

/-- C7: a click while not Seated (`isSitting` false, or a sit/stand
transition in progress) produces no callback and mutates nothing; a click
while Seated invokes the callback exactly once with the nearest hit's
identifier (the head of the distance-ordered hit list), or not at all when
nothing is hit, and the state is never mutated. -/
theorem onClick_gating (s : TS) (hits : List String) :
    ((s.isSitting = false ∨ s.isAnimating = true) →
      onClick hits s = (s, none)) ∧
    (s.isSitting = true → s.isAnimating = false →
      onClick hits s = (s, hits.head?)) ∧
    (onClick hits s).1 = s := by
  refine ⟨?_, ?_, ?_⟩
  · intro h
    unfold onClick
    rcases h with h | h
    · by_cases han : s.isAnimating = true
      · rw [if_pos han]
      · rw [if_neg han, if_pos h]
    · rw [if_pos h]
  · intro hs han
    unfold onClick
    rw [if_neg (by rw [han]; exact Bool.noConfusion)]
    rw [if_neg (by rw [hs]; simp)]
    cases hits <;> rfl
  · unfold onClick
    split
    · rfl
    · split
      · rfl
      · split <;> rfl

/-- Witness for C7: a seated state with one hit produces exactly that
callback. -/
theorem onClick_gating_witness :
    onClick ["ResumeCube"]
        ⟨false, [], none, true, false, false, false, none, 0, 0⟩ =
      (⟨false, [], none, true, false, false, false, none, 0, 0⟩,
        some "ResumeCube") :=
  (onClick_gating _ _).2.1 rfl rfl

/-- C8: `playAnimation` on a name missing from the table — and whenever the
mixer does not exist — leaves the whole scene state (in particular
`currentActionName` and every action handle) unchanged; being a total Lean
function, it raises nothing. -/
theorem playAnimation_unknown_noop (s : TS) (name : String)
    (h : s.mixer = false ∨ lookupA s.actions name = none) :
    playAnimation name s = s := by
  rcases h with h | h
  · exact pa_no_mixer name h
  · unfold playAnimation
    split
    · rfl
    · rw [h]

/-- Witness for C8 at the initial state (no mixer, empty table). -/
theorem playAnimation_unknown_noop_witness :
    playAnimation "Walk" TS.initTS = TS.initTS :=
  playAnimation_unknown_noop TS.initTS "Walk" (Or.inl rfl)

/-- C9: on every reachable state, whenever `currentActionName` is non-null
it names an entry present in the action table — assignments happen only
after a successful lookup and table keys are never removed. -/
theorem currentAction_in_table (s : TS) (h : Reachable s) (n : String)
    (hn : s.currentActionName = some n) :
    (lookupA s.actions n).isSome = true :=
  (reachable_inv h).2.2.2.1 n hn

/-- Witness for C9: after loading a table holding `'Idle'`, the current
action is `'Idle'` and it is present in the table. -/
theorem currentAction_in_table_witness :
    (lookupA (stepEv (Event.load [("Idle", ActionParams.fresh)])
        TS.initTS).actions "Idle").isSome = true :=
  currentAction_in_table _
    (Reachable.step Reachable.init (Event.load [("Idle", ActionParams.fresh)]))
    "Idle" (by decide)

end Portfolio
